import Mathlib

/-!
Verification of the `TeamBuilder` component of ReliefConnect
(`src/src/components/TeamBuilder.tsx`).

The component keeps React state (selected volunteers, team name, leader id,
required skills, ...) and exposes event handlers that update this state.
We embed the state as a structure and each handler as a pure function on it.
JavaScript specifics are modelled explicitly:
  * a volunteer's optional `skills` field is an `Option (List String)`;
    `v.skills?.includes(s)` is falsy when `skills` is absent;
  * `leaderId : string | null` is `Option String`; the truthiness test
    `!leaderId` fails for `null` and for the empty string;
  * `!teamName.trim()` rejects a name that is empty after trimming.
-/

namespace ReliefConnect

/-- A volunteer row as used by `TeamBuilder`: the `skills` field is optional
(`skills?: string[]`). Other row fields are irrelevant to the claims. -/
structure Volunteer where
  id : String
  skills : Option (List String)
  deriving Repr, DecidableEq

/-- `v.skills?.includes(skillId)`: `false` when the `skills` field is absent. -/
def volHasSkill (v : Volunteer) (skillId : String) : Bool :=
  match v.skills with
  | none => false
  | some ss => ss.contains skillId

/-- The React state of the `TeamBuilder` component (the pieces the claims
are about; the fetched volunteer/skill catalogues and UI filters are
independent of these and omitted). -/
structure ComponentState where
  selectedVolunteers : List Volunteer
  teamName : String
  teamDescription : String
  leaderId : Option String
  requiredSkills : List String
  location : String
  deriving Repr, DecidableEq

/-- The initial component state: `useState([])`, `useState('')`,
`useState<string | null>(null)`, `useState<string[]>([])`, `useState('')`. -/
def initialState : ComponentState :=
  { selectedVolunteers := []
    teamName := ""
    teamDescription := ""
    leaderId := none
    requiredSkills := []
    location := "" }

/-- `handleSelectVolunteer`: appends the volunteer unless one with the same
id is already selected. -/
def handleSelectVolunteer (s : ComponentState) (volunteer : Volunteer) :
    ComponentState :=
  if (s.selectedVolunteers.find? (fun v => v.id == volunteer.id)).isSome then s
  else { s with selectedVolunteers := s.selectedVolunteers ++ [volunteer] }

/-- `handleRemoveVolunteer`: filters the volunteer out of the selection and
clears `leaderId` when the removed volunteer was the leader. -/
def handleRemoveVolunteer (s : ComponentState) (volunteerId : String) :
    ComponentState :=
  let s1 := { s with
    selectedVolunteers :=
      s.selectedVolunteers.filter (fun v => v.id != volunteerId) }
  if s.leaderId = some volunteerId then { s1 with leaderId := none } else s1

/-- `handleSetLeader`: unconditionally sets `leaderId`. -/
def handleSetLeader (s : ComponentState) (volunteerId : String) :
    ComponentState :=
  { s with leaderId := some volunteerId }

/-- `handleToggleSkill`: removes the skill from `requiredSkills` if present,
otherwise appends it. -/
def handleToggleSkill (s : ComponentState) (skillId : String) :
    ComponentState :=
  if s.requiredSkills.contains skillId then
    { s with requiredSkills := s.requiredSkills.filter (fun id => id != skillId) }
  else
    { s with requiredSkills := s.requiredSkills ++ [skillId] }

/-- `calculateSkillCoverage`: iterates over `requiredSkills`, pushing each
skill id onto `covered` when some selected volunteer holds it, else onto
`missing`. Recursion on the list head mirrors the `forEach` push order. -/
def calculateSkillCoverage :
    List String → List Volunteer → List String × List String
  | [], _ => ([], [])
  | skillId :: rest, vols =>
    let acc := calculateSkillCoverage rest vols
    if vols.any (fun v => volHasSkill v skillId) then
      (skillId :: acc.1, acc.2)
    else
      (acc.1, skillId :: acc.2)

/-- JavaScript truthiness of `string | null`: `null` and `""` are falsy. -/
def jsTruthyStr : Option String → Bool
  | none => false
  | some s => s ≠ ""

/-- `validateTeam`: `true` iff the trimmed name is non-empty, some volunteer
is selected, and `leaderId` is truthy. Each failing check fires a toast and
returns `false` without touching state. -/
def validateTeam (s : ComponentState) : Bool :=
  if s.teamName.trim = "" then false
  else if s.selectedVolunteers.length = 0 then false
  else if !(jsTruthyStr s.leaderId) then false
  else true

/-- The toast fired by `validateTeam` on its first failing check, `none`
when validation passes: the user-facing rejection of the claims. -/
def validateTeamError (s : ComponentState) : Option String :=
  if s.teamName.trim = "" then some "Team name is required"
  else if s.selectedVolunteers.length = 0 then
    some "Please select at least one volunteer"
  else if !(jsTruthyStr s.leaderId) then some "Please designate a team leader"
  else none

/-- The record inserted into the `teams` table by `handleCreateTeam`. -/
structure TeamRecord where
  name : String
  description : String
  leader_id : Option String
  members : List String
  skills_required : List String
  active : Bool
  incident_id : Option String
  location : Option String
  deriving Repr, DecidableEq

/-- `incidentId || null` and `location || null`: the empty string collapses
to `null`. -/
def strOrNull : Option String → Option String
  | none => none
  | some s => if s = "" then none else some s

/-- `handleCreateTeam` (success path of the insert): when `validateTeam`
fails it returns without touching state or the store; otherwise it inserts
the team record built from the state and resets the form fields. -/
def handleCreateTeam (s : ComponentState) (incidentId : Option String) :
    ComponentState × Option TeamRecord :=
  if !(validateTeam s) then (s, none)
  else
    let record : TeamRecord :=
      { name := s.teamName
        description := s.teamDescription
        leader_id := s.leaderId
        members := s.selectedVolunteers.map (fun v => v.id)
        skills_required := s.requiredSkills
        active := true
        incident_id := strOrNull incidentId
        location := strOrNull (some s.location) }
    ({ s with
        teamName := ""
        teamDescription := ""
        leaderId := none
        selectedVolunteers := []
        requiredSkills := []
        location := "" },
     some record)

/-- `calculateSkillCoverage` as written in the source reads the component
state from its closure (`requiredSkills`, `selectedVolunteers`); this is the
state-level view of it. -/
def calculateSkillCoverageOf (s : ComponentState) : List String × List String :=
  calculateSkillCoverage s.requiredSkills s.selectedVolunteers

/-- The UI events of the component that mutate the state the claims track:
the list handlers, the create button, and the controlled-input setters. -/
inductive UIOp where
  | select (volunteer : Volunteer)
  | remove (volunteerId : String)
  | setLeader (volunteerId : String)
  | toggleSkill (skillId : String)
  | create (incidentId : Option String)
  | setName (x : String)
  | setDescription (x : String)
  | setLocation (x : String)
  deriving Repr, DecidableEq

/-- The state transition of each UI event. -/
def applyOp (s : ComponentState) : UIOp → ComponentState
  | .select v => handleSelectVolunteer s v
  | .remove volunteerId => handleRemoveVolunteer s volunteerId
  | .setLeader volunteerId => handleSetLeader s volunteerId
  | .toggleSkill skillId => handleToggleSkill s skillId
  | .create incidentId => (handleCreateTeam s incidentId).1
  | .setName x => { s with teamName := x }
  | .setDescription x => { s with teamDescription := x }
  | .setLocation x => { s with location := x }

/-- The proviso of claim C9: `handleSetLeader` is only ever invoked from the
selected-volunteers list, i.e. with the id of a selected volunteer. -/
def opOkForLeader (s : ComponentState) : UIOp → Prop
  | .setLeader volunteerId => ∃ v ∈ s.selectedVolunteers, v.id = volunteerId
  | _ => True

/-- The invariant of claim C9: the tracked leader id, when set, is the id of
some selected volunteer. -/
def leaderInv (s : ComponentState) : Prop :=
  ∀ l, s.leaderId = some l → ∃ v ∈ s.selectedVolunteers, v.id = l

/-- The invariant of claim C10: no two selected volunteers share an id. -/
def noDupIds (s : ComponentState) : Prop :=
  (s.selectedVolunteers.map (fun v => v.id)).Nodup

/-- The spec's validation example: name "Alpha", members v1 and v2, leader
unset. -/
def specExampleState : ComponentState :=
  ⟨[⟨"v1", none⟩, ⟨"v2", none⟩], "Alpha", "", none, [], ""⟩

/-- A state with one selected volunteer v1 who is the designated leader. -/
def leaderExampleState : ComponentState :=
  ⟨[⟨"v1", none⟩], "", "", some "v1", [], ""⟩

/-- `calculateSkillCoverage` filters `requiredSkills` by the existential
member-holds-skill test. -/
theorem calculateSkillCoverage_eq_filter (R : List String) (M : List Volunteer) :
    calculateSkillCoverage R M =
      (R.filter (fun sk => M.any (fun v => volHasSkill v sk)),
       R.filter (fun sk => !(M.any (fun v => volHasSkill v sk)))) := by
  induction R with
  | nil => rfl
  | cons skillId rest ih =>
    simp only [calculateSkillCoverage, ih, List.filter_cons]
    cases h : M.any (fun v => volHasSkill v skillId) <;> simp [h]

/-- `validateTeam` succeeds exactly when the trimmed name is non-empty, the
selection is non-empty, and the leader id is a truthy string. -/
theorem validateTeam_eq_true (s : ComponentState) :
    validateTeam s = true ↔
      (s.teamName.trim ≠ "" ∧ s.selectedVolunteers ≠ [] ∧
        ∃ l, s.leaderId = some l ∧ l ≠ "") := by
  unfold validateTeam
  cases hL : s.leaderId with
  | none => simp [jsTruthyStr, hL, List.length_eq_zero]
  | some l =>
    simp only [jsTruthyStr, hL, List.length_eq_zero]
    by_cases h1 : s.teamName.trim = "" <;>
      by_cases h2 : s.selectedVolunteers = [] <;>
        simp [h1, h2]

/-- Claim C1: for every required-skill list R and member list M,
`calculateSkillCoverage` partitions R exhaustively and disjointly: a skill
id is in R iff it lands in `covered` or in `missing`, and never in both. -/
theorem coverage_partition (R : List String) (M : List Volunteer) :
    (∀ sk, sk ∈ R ↔
      (sk ∈ (calculateSkillCoverage R M).1 ∨ sk ∈ (calculateSkillCoverage R M).2)) ∧
    (∀ sk, ¬(sk ∈ (calculateSkillCoverage R M).1 ∧ sk ∈ (calculateSkillCoverage R M).2)) := by
  rw [calculateSkillCoverage_eq_filter]
  constructor
  · intro sk
    simp only [List.mem_filter]
    cases h : M.any (fun v => volHasSkill v sk) <;> simp [h]
  · intro sk
    simp only [List.mem_filter]
    cases h : M.any (fun v => volHasSkill v sk) <;> simp [h]

/-- Claim C3: `calculateSkillCoverage` is total — for every required-skill
list (and every member list, including the empty one and volunteers with an
absent `skills` field) it returns a pair whose two components together are a
permutation of the required list: every required skill is classified. -/
theorem coverage_total (R : List String) (M : List Volunteer) :
    List.Perm ((calculateSkillCoverage R M).1 ++ (calculateSkillCoverage R M).2) R := by
  rw [calculateSkillCoverage_eq_filter]
  exact List.filter_append_perm _ R

/-- Claim C4: with no selected volunteers, every required skill is missing
and none is covered. -/
theorem coverage_empty_members (R : List String) :
    calculateSkillCoverage R [] = ([], R) := by
  simp [calculateSkillCoverage_eq_filter]

/-- Claim C5: with no required skills, both components are empty. -/
theorem coverage_empty_required (M : List Volunteer) :
    calculateSkillCoverage [] M = ([], []) := rfl

/-- Claim C6: the two concrete scenarios of the spec evaluate to exactly the
stated partitions. -/
theorem coverage_spec_scenarios :
    calculateSkillCoverage ["First Aid", "Driving"]
        [⟨"v1", some ["First Aid"]⟩, ⟨"v2", some ["Driving", "CPR"]⟩] =
      (["First Aid", "Driving"], []) ∧
    calculateSkillCoverage ["Translation"] [⟨"v1", some ["First Aid"]⟩] =
      ([], ["Translation"]) := by
  constructor <;> rfl

/-- Claim C7: the coverage computation is deterministic — it reads only
`requiredSkills` and `selectedVolunteers`, so two states agreeing on those
(whatever their other fields) yield identical results. -/
theorem coverage_deterministic (s1 s2 : ComponentState)
    (hR : s1.requiredSkills = s2.requiredSkills)
    (hM : s1.selectedVolunteers = s2.selectedVolunteers) :
    calculateSkillCoverageOf s1 = calculateSkillCoverageOf s2 := by
  unfold calculateSkillCoverageOf
  rw [hR, hM]

/-- Witness for C7: two states differing in the team name and location give
the same coverage. -/
theorem coverage_deterministic_witness :
    calculateSkillCoverageOf ⟨[⟨"v1", some ["x"]⟩], "Alpha", "", none, ["x"], ""⟩ =
      calculateSkillCoverageOf ⟨[⟨"v1", some ["x"]⟩], "Beta", "d", none, ["x"], "loc"⟩ :=
  coverage_deterministic _ _ rfl rfl

/-- Claim C8: `handleSetLeader` sets the tracked leader id to the given
volunteer id regardless of the previous designation and leaves every other
state field unchanged. -/
theorem set_leader_replaces (s : ComponentState) (volunteerId : String) :
    (handleSetLeader s volunteerId).leaderId = some volunteerId ∧
    (handleSetLeader s volunteerId).selectedVolunteers = s.selectedVolunteers ∧
    (handleSetLeader s volunteerId).requiredSkills = s.requiredSkills ∧
    (handleSetLeader s volunteerId).teamName = s.teamName ∧
    (handleSetLeader s volunteerId).teamDescription = s.teamDescription ∧
    (handleSetLeader s volunteerId).location = s.location :=
  ⟨rfl, rfl, rfl, rfl, rfl, rfl⟩

/-- `validateTeam` passes exactly when `validateTeamError` fires no toast. -/
theorem validateTeamError_eq_none (s : ComponentState) :
    validateTeamError s = none ↔ validateTeam s = true := by
  unfold validateTeamError validateTeam
  split_ifs <;> simp

/-- Claim C2: on states whose leader designation points into the selection
(the invariant maintained by the UI, claim C9), `handleCreateTeam` persists
a record only when the trimmed name is non-empty, the selection is
non-empty, and a leader is designated and present among the member ids; and
whenever one of these is violated, a user-facing toast fires and it returns
with the state untouched and no record created. -/
theorem create_team_guard (s : ComponentState) (incidentId : Option String)
    (hinv : leaderInv s) :
    ((handleCreateTeam s incidentId).2.isSome →
        s.teamName.trim ≠ "" ∧ s.selectedVolunteers ≠ [] ∧
        ∃ l, s.leaderId = some l ∧
          l ∈ s.selectedVolunteers.map (fun v => v.id)) ∧
    ((s.teamName.trim = "" ∨ s.selectedVolunteers = [] ∨
        ¬∃ l, s.leaderId = some l ∧
          l ∈ s.selectedVolunteers.map (fun v => v.id)) →
        handleCreateTeam s incidentId = (s, none) ∧
        ∃ msg, validateTeamError s = some msg) := by
  constructor
  · intro hSome
    have hval : validateTeam s = true := by
      by_contra hv
      have hf : validateTeam s = false := by
        revert hv
        cases validateTeam s <;> simp
      simp [handleCreateTeam, hf] at hSome
    obtain ⟨h1, h2, l, hl, _⟩ := (validateTeam_eq_true s).mp hval
    refine ⟨h1, h2, l, hl, ?_⟩
    obtain ⟨v, hv, hid⟩ := hinv l hl
    exact List.mem_map.mpr ⟨v, hv, hid⟩
  · intro hbad
    have hval : ¬ validateTeam s = true := by
      intro hv
      obtain ⟨h1, h2, l, hl, _⟩ := (validateTeam_eq_true s).mp hv
      rcases hbad with hb | hb | hb
      · exact h1 hb
      · exact h2 hb
      · obtain ⟨v, hvmem, hid⟩ := hinv l hl
        exact hb ⟨l, hl, List.mem_map.mpr ⟨v, hvmem, hid⟩⟩
    have hf : validateTeam s = false := by
      revert hval
      cases validateTeam s <;> simp
    refine ⟨by simp [handleCreateTeam, hf], ?_⟩
    cases hE : validateTeamError s with
    | none =>
      rw [validateTeamError_eq_none] at hE
      rw [hE] at hf
      exact absurd hf (by simp)
    | some msg => exact ⟨msg, rfl⟩

/-- Witness for C2, the spec's example: name "Alpha", members v1 and v2,
leader unset — the create request is rejected and the state is unchanged. -/
theorem create_team_guard_witness :
    handleCreateTeam specExampleState none = (specExampleState, none) ∧
    ∃ msg, validateTeamError specExampleState = some msg :=
  (create_team_guard specExampleState none
      (by intro l hl; exact Option.noConfusion hl)).2
    (Or.inr (Or.inr (by simp [specExampleState])))

/-- Claim C9: the invariant "the leader id, when set, is the id of a
selected volunteer" holds initially and is preserved by every UI operation,
provided `handleSetLeader` is only invoked with ids of selected volunteers;
in particular removing the current leader clears the designation. -/
theorem leader_invariant_preserved (s : ComponentState) (op : UIOp)
    (hinv : leaderInv s) (hok : opOkForLeader s op) :
    leaderInv initialState ∧
    leaderInv (applyOp s op) ∧
    (∀ x, s.leaderId = some x → (applyOp s (UIOp.remove x)).leaderId = none) := by
  refine ⟨?_, ?_, ?_⟩
  · intro l hl
    exact Option.noConfusion hl
  · cases op with
    | select v =>
      simp only [applyOp, handleSelectVolunteer]
      split
      · exact hinv
      · intro l hl
        obtain ⟨w, hw, hid⟩ := hinv l hl
        exact ⟨w, List.mem_append_left _ hw, hid⟩
    | remove volunteerId =>
      simp only [applyOp, handleRemoveVolunteer]
      split
      · intro l hl
        exact Option.noConfusion hl
      · rename_i hne
        intro l hl
        obtain ⟨w, hw, hid⟩ := hinv l hl
        refine ⟨w, ?_, hid⟩
        rw [List.mem_filter]
        refine ⟨hw, ?_⟩
        simp only [bne_iff_ne, ne_eq]
        intro hwid
        subst hid
        rw [hwid] at hl
        exact hne hl
    | setLeader volunteerId =>
      have hok2 : ∃ v ∈ s.selectedVolunteers, v.id = volunteerId := hok
      obtain ⟨v, hv, hid⟩ := hok2
      intro l hl
      have hvl : volunteerId = l := by
        simpa [applyOp, handleSetLeader] using hl
      exact ⟨v, hv, hvl ▸ hid⟩
    | toggleSkill skillId =>
      simp only [applyOp, handleToggleSkill]
      split
      · intro l hl
        exact hinv l hl
      · intro l hl
        exact hinv l hl
    | create incidentId =>
      by_cases hv : validateTeam s = true
      · simp only [applyOp, handleCreateTeam, hv]
        intro l hl
        simp at hl
      · have hf : validateTeam s = false := by
          revert hv
          cases validateTeam s <;> simp
        simp only [applyOp, handleCreateTeam, hf]
        intro l hl
        exact hinv l hl
    | setName x =>
      intro l hl
      exact hinv l hl
    | setDescription x =>
      intro l hl
      exact hinv l hl
    | setLocation x =>
      intro l hl
      exact hinv l hl
  · intro x hx
    simp [applyOp, handleRemoveVolunteer, hx]

/-- Witness for C9: in a state where v1 is selected and designated leader,
removing v1 clears the leader id. -/
theorem leader_invariant_witness :
    (applyOp leaderExampleState (UIOp.remove "v1")).leaderId = none :=
  (leader_invariant_preserved leaderExampleState (UIOp.remove "v1")
      (by
        intro l hl
        simp only [leaderExampleState, Option.some.injEq] at hl
        subst hl
        exact ⟨⟨"v1", none⟩, by simp [leaderExampleState], rfl⟩)
      trivial).2.2 "v1" rfl

/-- Claim C10: the selection never holds two volunteers with the same id:
it is duplicate-free initially, `handleSelectVolunteer` is a no-op when a
volunteer with that id is already selected, and duplicate-freeness of the
member ids is preserved by every UI operation. -/
theorem nodup_ids_invariant (s : ComponentState) (op : UIOp) (hnd : noDupIds s) :
    noDupIds initialState ∧
    noDupIds (applyOp s op) ∧
    (∀ v : Volunteer, (∃ w ∈ s.selectedVolunteers, w.id = v.id) →
        handleSelectVolunteer s v = s) := by
  refine ⟨?_, ?_, ?_⟩
  · simp [noDupIds, initialState]
  · cases op with
    | select v =>
      simp only [applyOp, handleSelectVolunteer]
      split
      · exact hnd
      · rename_i hfind
        have hnone : s.selectedVolunteers.find? (fun w => w.id == v.id) = none := by
          cases hf : s.selectedVolunteers.find? (fun w => w.id == v.id)
          · rfl
          · exact absurd (by simp [hf]) hfind
        have hall := List.find?_eq_none.mp hnone
        simp only [noDupIds, List.map_append, List.map_cons, List.map_nil] at hnd ⊢
        rw [List.nodup_append]
        refine ⟨hnd, List.nodup_singleton _, ?_⟩
        intro a ha hb
        rw [List.mem_singleton] at hb
        obtain ⟨w, hw, hwid⟩ := List.mem_map.mp ha
        exact absurd (by simp [hwid, hb]) (hall w hw)
    | remove volunteerId =>
      simp only [applyOp, handleRemoveVolunteer]
      split
      · exact hnd.sublist
          ((List.filter_sublist s.selectedVolunteers).map (fun v => v.id))
      · exact hnd.sublist
          ((List.filter_sublist s.selectedVolunteers).map (fun v => v.id))
    | setLeader volunteerId => exact hnd
    | toggleSkill skillId =>
      simp only [applyOp, handleToggleSkill]
      split
      · exact hnd
      · exact hnd
    | create incidentId =>
      by_cases hv : validateTeam s = true
      · simp only [applyOp, handleCreateTeam, hv]
        simp [noDupIds]
      · have hf : validateTeam s = false := by
          revert hv
          cases validateTeam s <;> simp
        simp only [applyOp, handleCreateTeam, hf]
        exact hnd
    | setName x => exact hnd
    | setDescription x => exact hnd
    | setLocation x => exact hnd
  · intro v hv
    obtain ⟨w, hw, hwid⟩ := hv
    have hsome : (s.selectedVolunteers.find? (fun u => u.id == v.id)).isSome := by
      rw [List.find?_isSome]
      exact ⟨w, hw, by simp [hwid]⟩
    simp [handleSelectVolunteer, hsome]

/-- Witness for C10: selecting a volunteer whose id v1 is already selected
leaves the state unchanged. -/
theorem nodup_ids_witness :
    handleSelectVolunteer leaderExampleState ⟨"v1", some ["CPR"]⟩ =
      leaderExampleState :=
  (nodup_ids_invariant leaderExampleState (UIOp.setName "x")
      (by simp [noDupIds, leaderExampleState])).2.2 ⟨"v1", some ["CPR"]⟩
    ⟨⟨"v1", none⟩, by simp [leaderExampleState], rfl⟩

end ReliefConnect
